import Mathlib

/-!
Verification of the styling registry and base control of the jsonforms
fragment (src/core/styling.registry.ts, src/renderers/controls/base.control.ts).

The TypeScript code is shallowly embedded:
* the registry's mutable `styles` array becomes a `List Style` threaded
  through the operations;
* lodash `_.remove(xs, p)` (removes every matching element, in place)
  becomes `List.filter (fun x => !(p x))`;
* `Array.prototype.push(x)` becomes `· ++ [x]`;
* lodash `_.find` becomes `List.find?`;
* JavaScript `String.prototype.split(' ')` is modelled by `jsSplit · ' '`
  below, written out on the character list (in particular
  `"".split(' ') = [""]` and `"a  b".split(' ') = ["a", "", "b"]`), and
  `_.join(xs, ' ')` by `String.intercalate " " xs`;
* for the aliasing behaviour of `get` (which returns the stored
  `classNames` array itself, not a copy) a second, reference-level model
  `RegistryH` is used, in which arrays live in an explicit heap and the
  registry records hold references into it;
* the control's DOM nodes become a record of the attributes the code
  reads and writes (`classList`, error text, `hidden`, the input's
  `disabled` attribute), and the external data service becomes a log of
  the notifications pushed to it.
-/

namespace JsonForms

/-- Splitting of a character list at every occurrence of the separator,
keeping empty pieces, exactly as JavaScript `split` does for a one-character
separator: `[] ↦ [[]]`, and a separator character opens a new (initially
empty) piece. -/
def splitList (sep : Char) : List Char → List (List Char)
  | [] => [[]]
  | ch :: rest =>
    match splitList sep rest with
    | [] => [[ch]]
    | piece :: pieces =>
      if ch = sep then [] :: piece :: pieces else (ch :: piece) :: pieces

/-- JavaScript `s.split(sep)` for a single-character separator `sep`:
`"".split(' ') = [""]`, `"a b".split(' ') = ["a","b"]`,
`"a  b".split(' ') = ["a","","b"]`. -/
def jsSplit (s : String) (sep : Char) : List String :=
  (splitList sep s.data).map String.mk

/-- Joining with a leading separator before every element; the tail part of
`String.intercalate`. -/
def sepJoin (s : String) : List String → String
  | [] => ""
  | a :: as => s ++ a ++ sepJoin s as

/-- A style associates a name with a list of CSS class names
(interface `Style` of styling.registry.ts). -/
structure Style where
  name : String
  classNames : List String
deriving DecidableEq, Repr

namespace StylingRegistry

/-- `StylingRegistryImpl.deregister(styleName)`:
`_.remove(this.styles, style => style.name === styleName)` removes every
record whose name matches, so the new state keeps exactly the
non-matching records, in order. -/
def deregister (styles : List Style) (styleName : String) : List Style :=
  styles.filter (fun style => !(style.name == styleName))

/-- `StylingRegistryImpl.register(name, classNames)` (string overload):
`this.deregister(style); this.styles.push({name: style, classNames});`. -/
def registerNamed (styles : List Style) (name : String)
    (classNames : List String) : List Style :=
  deregister styles name ++ [⟨name, classNames⟩]

/-- `StylingRegistryImpl.register(style)` (object overload):
`this.deregister(style.name); this.styles.push(style);`. -/
def register (styles : List Style) (style : Style) : List Style :=
  deregister styles style.name ++ [style]

/-- `StylingRegistryImpl.registerMany(styles)`:
`styles.forEach(style => this.register(style.name, style.classNames))`. -/
def registerMany (styles : List Style) (newStyles : List Style) : List Style :=
  newStyles.foldl (fun acc style => registerNamed acc style.name style.classNames) styles

/-- `StylingRegistryImpl.get(styleName)`:
`_.find` returns the first matching record or `undefined`; a found `Style`
object always has the keys `name` and `classNames`, so the
`!_.isEmpty(foundStyle)` guard is exactly the found/undefined distinction,
and the method returns the found record's `classNames`, else `[]`. -/
def get (styles : List Style) (styleName : String) : List String :=
  match styles.find? (fun style => style.name == styleName) with
  | some foundStyle => foundStyle.classNames
  | none => []

/-- `StylingRegistryImpl.getAsClassName(styleName)`:
returns `''` when `get` is empty, otherwise the class names joined by a
single space. -/
def getAsClassName (styles : List Style) (styleName : String) : String :=
  let found := get styles styleName
  if found.isEmpty then "" else String.intercalate " " found

/-- `StylingRegistryImpl.applyStyles(styleName, element)`: reads and writes
`element.className`, which we model as the string passed in and returned.
When nothing is registered the method returns early and the element is
untouched; otherwise `element.className.split(' ')` is concatenated with the
registered names and joined by `' '`. -/
def applyStyles (styles : List Style) (styleName : String)
    (className : String) : String :=
  let registeredStyles := get styles styleName
  if registeredStyles.isEmpty then className
  else String.intercalate " " (jsSplit className ' ' ++ registeredStyles)

/-- The registry invariant of the spec: at most one `Style` record per name,
stated as the list of registered names having no duplicate. -/
def NamesNodup (styles : List Style) : Prop :=
  (styles.map Style.name).Nodup

instance (styles : List Style) : Decidable (NamesNodup styles) :=
  inferInstanceAs (Decidable ((styles.map Style.name).Nodup))

end StylingRegistry

/-! Reference-level model of the registry, for the aliasing behaviour of
`get`. In JavaScript, `this.styles.push(style)` stores the caller's
`classNames` array and `return foundStyle.classNames;` hands that same array
back, so we make the array identities explicit: `heap` holds the array
contents and each registry record holds an index (`classNamesRef`) into the
heap. In-place mutation of an array — whether by the registry's caller,
through the very array `get` returned — is `writeRef`. -/

/-- A registry record as stored at run time: the `classNames` field of a
record is a reference to an array, not a value. -/
structure StyleRef where
  name : String
  classNamesRef : Nat
deriving DecidableEq, Repr

/-- Heap-and-records state of `StylingRegistryImpl`. -/
structure RegistryH where
  styles : List StyleRef
  heap : List (List String)
deriving DecidableEq, Repr

namespace RegistryH

/-- Reading the contents of an array through its heap reference. -/
def readRef (reg : RegistryH) (r : Nat) : List String :=
  reg.heap.getD r []

/-- In-place mutation of the array behind reference `r` (the caller holds
that reference; the registry's records are untouched). -/
def writeRef (reg : RegistryH) (r : Nat) (v : List String) : RegistryH :=
  { reg with heap := reg.heap.set r v }

/-- `deregister` in the reference-level model: same record filtering as in
the value-level model; the heap is not touched (lodash `_.remove` only
drops the records). -/
def deregisterH (reg : RegistryH) (styleName : String) : RegistryH :=
  { reg with styles := reg.styles.filter (fun s => !(s.name == styleName)) }

/-- `register(name, classNames)` in the reference-level model: the caller's
array reference is stored as-is (`this.styles.push({name, classNames})`
does not copy the array). -/
def registerNamedH (reg : RegistryH) (name : String)
    (classNamesRef : Nat) : RegistryH :=
  let r := deregisterH reg name
  { r with styles := r.styles ++ [⟨name, classNamesRef⟩] }

/-- `get(styleName)` in the reference-level model:
`return foundStyle.classNames;` returns the stored array itself, i.e. the
reference; `none` stands for the fresh `[]` literal built when the name is
absent (a new array on every call, aliased with nothing). -/
def getH (reg : RegistryH) (styleName : String) : Option Nat :=
  (reg.styles.find? (fun s => s.name == styleName)).map StyleRef.classNamesRef

/-- `getAsClassName(styleName)` in the reference-level model: dereferences
whatever `get` produced. -/
def getAsClassNameH (reg : RegistryH) (styleName : String) : String :=
  match getH reg styleName with
  | none => ""
  | some r =>
    let cls := reg.readRef r
    if cls.isEmpty then "" else String.intercalate " " cls

end RegistryH

/-! Model of src/renderers/controls/base.control.ts. -/

/-- The `scope` sub-object of a UI schema element; `ref` models `$ref`. -/
structure Scope where
  ref : String
deriving DecidableEq, Repr

/-- A `ControlElement` as far as the base control reads it: the bound data
path reference. -/
structure ControlElement where
  scope : Scope
deriving DecidableEq, Repr

/-- The `validationErrors` field of the runtime sub-object, keeping the
JavaScript distinction between `undefined`, `null` and an actual array of
strings: `formatErrorMessage` treats `undefined` and `null` alike, but the
`!== undefined` check in `runtimeUpdated` does not. -/
inductive JSStringArray where
  | undef
  | null
  | arr (elems : List String)
deriving DecidableEq, Repr

/-- The `runtime` sub-object of the control's UI schema element. -/
structure Runtime where
  visible : Bool
  enabled : Bool
  validationErrors : JSStringArray
deriving DecidableEq, Repr

/-- The runtime event kinds dispatched to `runtimeUpdated`; `other` stands
for any further kind, which falls into the switch's default branch. -/
inductive RUNTIME_TYPE where
  | VALIDATION_ERROR
  | VISIBLE
  | ENABLED
  | other
deriving DecidableEq, Repr

/-- The DOM state the base control reads and writes during
`runtimeUpdated`: its own class list, the error element's text, its
`hidden` property and the input's `disabled` attribute. -/
structure ControlDom where
  classList : List String
  errorText : String
  hidden : Bool
  inputDisabled : Bool
deriving DecidableEq, Repr

namespace BaseControl

/-- `BaseControl.formatErrorMessage(errors)`: `''` for `undefined` and
`null`, otherwise `errors.join('\n')`. -/
def formatErrorMessage : JSStringArray → String
  | .undef => ""
  | .null => ""
  | .arr errors => String.intercalate "\n" errors

/-- `DOMTokenList.toggle(token, force)`: with `force = true` the token is
added (kept if already present, appended otherwise), with `force = false`
it is removed. -/
def classListToggle (classes : List String) (token : String)
    (force : Bool) : List String :=
  if force then (if token ∈ classes then classes else classes ++ [token])
  else classes.filter (fun t => !(t == token))

/-- `BaseControl.runtimeUpdated(type)`: dispatch on the event kind.
`VALIDATION_ERROR` rewrites the error element's text through
`formatErrorMessage` and toggles the `'validation.error'` style class with
force `runtime.validationErrors !== undefined`; `VISIBLE` sets
`hidden = !runtime.visible`; `ENABLED` sets or removes the input's
`disabled` attribute; anything else is ignored. -/
def runtimeUpdated (registry : List Style) (runtime : Runtime)
    (ty : RUNTIME_TYPE) (dom : ControlDom) : ControlDom :=
  match ty with
  | .VALIDATION_ERROR =>
    { dom with
      errorText := formatErrorMessage runtime.validationErrors
      classList :=
        classListToggle dom.classList
          (StylingRegistry.getAsClassName registry "validation.error")
          (match runtime.validationErrors with
           | .undef => false
           | _ => true) }
  | .VISIBLE => { dom with hidden := !runtime.visible }
  | .ENABLED => { dom with inputDisabled := !runtime.enabled }
  | .other => dom

/-- `BaseControl.needsNotificationAbout(controlElement)`: `false` for
`undefined` and `null` (both collapsed into `none`), otherwise comparison
of the two `scope.$ref` path references. -/
def needsNotificationAbout (self : ControlElement)
    (other : Option ControlElement) : Bool :=
  match other with
  | none => false
  | some o => self.scope.ref == o.scope.ref

/-- One notification pushed to the data service by
`notifyAboutDataChange(controlElement, newValue)`. -/
structure Notification (V : Type) where
  element : ControlElement
  value : V
deriving DecidableEq, Repr

/-- The data service's `notifyAboutDataChange`, modelled as appending one
notification to the service's log. -/
def notifyAboutDataChange {V : Type} (log : List (Notification V))
    (ce : ControlElement) (v : V) : List (Notification V) :=
  log ++ [⟨ce, v⟩]

/-- `BaseControl.getValue(input)`:
`this.convertInputValue(input[this.valueProperty])`; the widget's current
value slot `input[this.valueProperty]` is passed as `inputValue`. -/
def getValue {V W : Type} (convertInputValue : V → W) (inputValue : V) : W :=
  convertInputValue inputValue

/-- Firing the change handler that `createInput` installed on
`input[this.inputChangeProperty]`: its body is
`this.dataService.notifyAboutDataChange(controlElement, this.getValue(this.input))`. -/
def inputChangeHandler {V W : Type} (convertInputValue : V → W)
    (controlElement : ControlElement) (inputValue : V)
    (log : List (Notification W)) : List (Notification W) :=
  notifyAboutDataChange log controlElement (getValue convertInputValue inputValue)

end BaseControl

end JsonForms

namespace JsonForms

open StylingRegistry

/-- The accumulator-passing loop of `String.intercalate` prepends its
accumulator to `sepJoin` of the remaining pieces. -/
theorem intercalate_go_eq (s : String) :
    ∀ (l : List String) (acc : String),
      String.intercalate.go acc s l = acc ++ sepJoin s l
  | [], acc => by simp [String.intercalate.go, sepJoin]
  | a :: as, acc => by
    rw [String.intercalate.go, intercalate_go_eq s as, sepJoin]
    simp [String.append_assoc]

/-- `String.intercalate` on a non-empty list is the head followed by the
separator-prefixed join of the tail. -/
theorem intercalate_eq_sepJoin (s a : String) (as : List String) :
    String.intercalate s (a :: as) = a ++ sepJoin s as := by
  rw [String.intercalate, intercalate_go_eq]

/-- Every record kept by `deregister styles n` has a name other than `n`. -/
theorem deregister_find?_eq_none (styles : List Style) (n : String) :
    (deregister styles n).find? (fun style => style.name == n) = none := by
  rw [List.find?_eq_none]
  intro s hs
  have := List.of_mem_filter hs
  simpa using this

/-- After `registerNamed`, a lookup of the registered name finds the new
record (it is the only one left with that name). -/
theorem find?_registerNamed (styles : List Style) (n : String)
    (cls : List String) :
    (registerNamed styles n cls).find? (fun style => style.name == n) =
      some ⟨n, cls⟩ := by
  unfold registerNamed
  rw [List.find?_append, deregister_find?_eq_none]
  simp

/-- Every record surviving `deregister styles n` has a name other than `n`,
membership form. -/
theorem name_ne_of_mem_deregister {styles : List Style} {n : String}
    {s : Style} (h : s ∈ deregister styles n) : s.name ≠ n := by
  have := List.of_mem_filter h
  simpa using this

/-- `deregister` keeps a sublist of the records, so it preserves the
one-record-per-name invariant. -/
theorem namesNodup_deregister {styles : List Style} (n : String)
    (h : NamesNodup styles) : NamesNodup (deregister styles n) :=
  List.Nodup.sublist ((List.filter_sublist styles).map Style.name) h

/-- `register(name, classNames)` preserves the one-record-per-name
invariant: the pushed record is the only one left with its name. -/
theorem namesNodup_registerNamed {styles : List Style} (n : String)
    (cls : List String) (h : NamesNodup styles) :
    NamesNodup (registerNamed styles n cls) := by
  unfold NamesNodup registerNamed
  rw [List.map_append, List.nodup_append]
  refine ⟨namesNodup_deregister n h, by simp, ?_⟩
  intro x hx hx2
  simp only [List.map_cons, List.map_nil, List.mem_singleton] at hx2
  subst hx2
  obtain ⟨s, hs, hsx⟩ := List.mem_map.mp hx
  exact name_ne_of_mem_deregister hs hsx

/-- `register(style)` preserves the one-record-per-name invariant. -/
theorem namesNodup_register {styles : List Style} (s : Style)
    (h : NamesNodup styles) : NamesNodup (register styles s) :=
  namesNodup_registerNamed s.name s.classNames h

/-- `registerMany` preserves the one-record-per-name invariant. -/
theorem namesNodup_registerMany {styles : List Style} (newStyles : List Style)
    (h : NamesNodup styles) : NamesNodup (registerMany styles newStyles) := by
  induction newStyles generalizing styles with
  | nil => exact h
  | cons s rest ih =>
    exact ih (namesNodup_registerNamed s.name s.classNames h)

/-- A token toggled on is in the resulting class list. -/
theorem mem_classListToggle_add (classes : List String) (token : String) :
    token ∈ BaseControl.classListToggle classes token true := by
  unfold BaseControl.classListToggle
  simp only [if_true]
  split
  · assumption
  · exact List.mem_append_right _ (List.mem_singleton.mpr rfl)

/-- A token toggled off is not in the resulting class list. -/
theorem not_mem_classListToggle_remove (classes : List String)
    (token : String) :
    token ∉ BaseControl.classListToggle classes token false := by
  unfold BaseControl.classListToggle
  intro h
  simp only [Bool.false_eq_true, if_false] at h
  have := List.of_mem_filter h
  simp at this

/-- C1: registering twice under the same name replaces the entry: for every
registry state and all names `N` and class lists `A`, `B`, after
`register(N, A)` followed by `register(N, B)`, `get(N)` returns exactly `B`. -/
theorem C1_register_overwrites (styles : List Style) (N : String)
    (A B : List String) :
    StylingRegistry.get (registerNamed (registerNamed styles N A) N B) N = B := by
  unfold StylingRegistry.get
  rw [find?_registerNamed]

/-- C2: every registry operation preserves the invariant that there is at
most one `Style` record per name: starting from any state whose names are
pairwise distinct, `register` (either overload), `registerMany` and
`deregister` all produce a state whose names are pairwise distinct. -/
theorem C2_invariant_preserved (styles : List Style) (h : NamesNodup styles) :
    (∀ n cls, NamesNodup (registerNamed styles n cls)) ∧
    (∀ s, NamesNodup (register styles s)) ∧
    (∀ newStyles, NamesNodup (registerMany styles newStyles)) ∧
    (∀ n, NamesNodup (deregister styles n)) :=
  ⟨fun n cls => namesNodup_registerNamed n cls h,
   fun s => namesNodup_register s h,
   fun newStyles => namesNodup_registerMany newStyles h,
   fun n => namesNodup_deregister n h⟩

/-- Witness for C2 at a concrete one-record state. -/
theorem C2_invariant_preserved_witness :
    NamesNodup [⟨"a", ["x"]⟩] ∧
    NamesNodup (registerNamed [⟨"a", ["x"]⟩] "a" ["y"]) ∧
    NamesNodup (register [⟨"a", ["x"]⟩] ⟨"b", []⟩) ∧
    NamesNodup (registerMany [⟨"a", ["x"]⟩] [⟨"a", ["z"]⟩, ⟨"b", ["w"]⟩]) ∧
    NamesNodup (deregister [⟨"a", ["x"]⟩] "a") :=
  have h : NamesNodup [⟨"a", ["x"]⟩] := by decide
  ⟨h, (C2_invariant_preserved _ h).1 "a" ["y"],
   (C2_invariant_preserved _ h).2.1 ⟨"b", []⟩,
   (C2_invariant_preserved _ h).2.2.1 [⟨"a", ["z"]⟩, ⟨"b", ["w"]⟩],
   (C2_invariant_preserved _ h).2.2.2 "a"⟩

/-- C8: `deregister` on a name that is not present neither throws (it is a
total function here) nor changes the registry state. -/
theorem C8_deregister_unknown_noop (styles : List Style) (N : String)
    (h : ∀ s ∈ styles, s.name ≠ N) : deregister styles N = styles := by
  unfold deregister
  rw [List.filter_eq_self]
  intro s hs
  simpa using h s hs

/-- Witness for C8: removing the absent name `"b"` from a one-record
registry leaves it unchanged. -/
theorem C8_deregister_unknown_noop_witness :
    (∀ s ∈ [(⟨"a", ["x"]⟩ : Style)], s.name ≠ "b") ∧
    deregister [(⟨"a", ["x"]⟩ : Style)] "b" = [⟨"a", ["x"]⟩] :=
  ⟨by decide, C8_deregister_unknown_noop _ "b" (by decide)⟩

/-- C5: `applyStyles` leaves the element's class attribute unchanged when
nothing is registered for the name, and otherwise joins the element's
existing class tokens (in their original order) followed by the registered
class names (in registration order); on an element with class `"foo"` and
registered style `["bar", "baz"]` the result is `"foo bar baz"`. -/
theorem C5_applyStyles_appends (styles : List Style) (N c : String) :
    (StylingRegistry.get styles N = [] → applyStyles styles N c = c) ∧
    (StylingRegistry.get styles N ≠ [] →
      applyStyles styles N c =
        String.intercalate " " (jsSplit c ' ' ++ StylingRegistry.get styles N)) ∧
    applyStyles [⟨"s1", ["bar", "baz"]⟩] "s1" "foo" = "foo bar baz" := by
  refine ⟨fun h => ?_, fun h => ?_, by decide⟩
  · unfold applyStyles
    simp [h]
  · unfold applyStyles
    simp [List.isEmpty_iff, h]

/-- Witness for C5: the no-op case on the empty registry and the concrete
`"foo"` + `["bar", "baz"]` example. -/
theorem C5_applyStyles_appends_witness :
    applyStyles ([] : List Style) "s1" "foo" = "foo" ∧
    applyStyles [⟨"s1", ["bar", "baz"]⟩] "s1" "foo" = "foo bar baz" :=
  ⟨(C5_applyStyles_appends [] "s1" "foo").1 (by decide),
   (C5_applyStyles_appends [] "s1" "foo").2.2⟩

/-- C10: on an element whose class attribute is the empty string,
`applyStyles` with a registered non-empty class list produces a class
attribute that starts with a space: the empty existing class survives as an
empty token, so the result is one separator followed by the joined
registered names. -/
theorem C10_applyStyles_empty_class_leading_space (styles : List Style)
    (N : String) (h : StylingRegistry.get styles N ≠ []) :
    applyStyles styles N "" =
      " " ++ String.intercalate " " (StylingRegistry.get styles N) := by
  unfold applyStyles
  simp only [List.isEmpty_iff, h, if_neg]
  cases hc : StylingRegistry.get styles N with
  | nil => exact absurd hc h
  | cons c0 rest =>
    have hsplit : jsSplit "" ' ' = [""] := by decide
    rw [hsplit]
    simp [intercalate_eq_sepJoin, sepJoin, String.append_assoc]

/-- Witness for C10: with registered style `["bar", "baz"]` and empty
existing class, the result is `" bar baz"`, not `"bar baz"`. -/
theorem C10_applyStyles_empty_class_leading_space_witness :
    StylingRegistry.get [⟨"s1", ["bar", "baz"]⟩] "s1" ≠ [] ∧
    applyStyles [⟨"s1", ["bar", "baz"]⟩] "s1" "" = " bar baz" ∧
    " bar baz" ≠ "bar baz" :=
  ⟨by decide,
   (C10_applyStyles_empty_class_leading_space [⟨"s1", ["bar", "baz"]⟩] "s1"
      (by decide)).trans (by decide),
   by decide⟩

/-- C7 as stated is false: in the reference-level model, `get` on the
registered name `"x"` hands back the stored array itself (reference `0`),
and mutating that array changes what a subsequent `getAsClassName`
observes for `"x"` — from `"a"` to `"a evil"`. -/
theorem C7_get_aliasing_counterexample :
    RegistryH.getH (RegistryH.registerNamedH ⟨[], [["a"]]⟩ "x" 0) "x" = some 0 ∧
    RegistryH.getAsClassNameH (RegistryH.registerNamedH ⟨[], [["a"]]⟩ "x" 0) "x" = "a" ∧
    RegistryH.getAsClassNameH
      (RegistryH.writeRef (RegistryH.registerNamedH ⟨[], [["a"]]⟩ "x" 0) 0
        ["a", "evil"]) "x" = "a evil" ∧
    ("a evil" : String) ≠ "a" := by
  decide

/-- C7 amended: `get` on a registered name returns the registry's stored
`classNames` array itself — a shared mutable reference — so writing through
that reference changes what subsequent registry operations observe for the
name: the lookup still yields the same reference, reading it yields the new
contents, and `getAsClassName` joins the new contents. -/
theorem C7_get_returns_shared_reference (reg : RegistryH) (n : String)
    (r : Nat) (v : List String) (h : RegistryH.getH reg n = some r)
    (hr : r < reg.heap.length) (hv : v ≠ []) :
    RegistryH.getH (RegistryH.writeRef reg r v) n = some r ∧
    RegistryH.readRef (RegistryH.writeRef reg r v) r = v ∧
    RegistryH.getAsClassNameH (RegistryH.writeRef reg r v) n =
      String.intercalate " " v := by
  have hget : RegistryH.getH (RegistryH.writeRef reg r v) n = some r := h
  have hread : RegistryH.readRef (RegistryH.writeRef reg r v) r = v := by
    unfold RegistryH.readRef RegistryH.writeRef
    simp [List.getD_eq_getElem?_getD, List.getElem?_set_self, hr]
  refine ⟨hget, hread, ?_⟩
  unfold RegistryH.getAsClassNameH
  rw [hget]
  simp only [hread, List.isEmpty_iff]
  rw [if_neg hv]

/-- Witness for the amended C7 at the concrete registry holding `"x" ↦
reference 0 ↦ ["a"]`, mutated to `["a", "evil"]`. -/
theorem C7_get_returns_shared_reference_witness :
    RegistryH.getH (RegistryH.registerNamedH ⟨[], [["a"]]⟩ "x" 0) "x" = some 0 ∧
    0 < (RegistryH.registerNamedH ⟨[], [["a"]]⟩ "x" 0).heap.length ∧
    (["a", "evil"] : List String) ≠ [] ∧
    RegistryH.getAsClassNameH
      (RegistryH.writeRef (RegistryH.registerNamedH ⟨[], [["a"]]⟩ "x" 0) 0
        ["a", "evil"]) "x" = String.intercalate " " ["a", "evil"] :=
  ⟨by decide, by decide, by decide,
   (C7_get_returns_shared_reference (RegistryH.registerNamedH ⟨[], [["a"]]⟩ "x" 0)
      "x" 0 ["a", "evil"] (by decide) (by decide) (by decide)).2.2⟩

/-- C3: dispatching a `VALIDATION_ERROR` runtime event with
`validationErrors = ["required"]` sets the error element's text to
`"required"` and adds the `'validation.error'` style class to the control's
class list; dispatching it with `validationErrors = undefined` sets the
text to `""` and removes that class. -/
theorem C3_validation_error_event (registry : List Style) (dom : ControlDom)
    (vis en : Bool) :
    ((BaseControl.runtimeUpdated registry ⟨vis, en, .arr ["required"]⟩
        .VALIDATION_ERROR dom).errorText = "required" ∧
     StylingRegistry.getAsClassName registry "validation.error" ∈
       (BaseControl.runtimeUpdated registry ⟨vis, en, .arr ["required"]⟩
          .VALIDATION_ERROR dom).classList) ∧
    ((BaseControl.runtimeUpdated registry ⟨vis, en, .undef⟩
        .VALIDATION_ERROR dom).errorText = "" ∧
     StylingRegistry.getAsClassName registry "validation.error" ∉
       (BaseControl.runtimeUpdated registry ⟨vis, en, .undef⟩
          .VALIDATION_ERROR dom).classList) :=
  ⟨⟨rfl, mem_classListToggle_add _ _⟩,
   ⟨rfl, not_mem_classListToggle_remove _ _⟩⟩

/-- Witness for C3 at a concrete registry (`'validation.error' ↦ ["err"]`)
and control state. -/
theorem C3_validation_error_event_witness :
    (BaseControl.runtimeUpdated [⟨"validation.error", ["err"]⟩]
        ⟨true, true, .arr ["required"]⟩ .VALIDATION_ERROR
        ⟨["control"], "", false, false⟩).errorText = "required" ∧
    "err" ∈ (BaseControl.runtimeUpdated [⟨"validation.error", ["err"]⟩]
        ⟨true, true, .arr ["required"]⟩ .VALIDATION_ERROR
        ⟨["control"], "", false, false⟩).classList ∧
    (BaseControl.runtimeUpdated [⟨"validation.error", ["err"]⟩]
        ⟨true, true, .undef⟩ .VALIDATION_ERROR
        ⟨["control"], "", false, false⟩).errorText = "" ∧
    "err" ∉ (BaseControl.runtimeUpdated [⟨"validation.error", ["err"]⟩]
        ⟨true, true, .undef⟩ .VALIDATION_ERROR
        ⟨["control"], "", false, false⟩).classList := by
  have h := C3_validation_error_event [⟨"validation.error", ["err"]⟩]
    ⟨["control"], "", false, false⟩ true true
  have htok : StylingRegistry.getAsClassName [⟨"validation.error", ["err"]⟩]
      "validation.error" = "err" := by decide
  rw [htok] at h
  exact ⟨h.1.1, h.1.2, h.2.1, h.2.2⟩

/-- C9: on a `VALIDATION_ERROR` event, presence of the error style class
afterwards is equivalent to `validationErrors` not being `undefined`; in
particular for `null` and for the empty array the class is added (or kept)
although the error text is set to the empty string. -/
theorem C9_error_class_iff_not_undef (registry : List Style)
    (dom : ControlDom) (vis en : Bool) :
    (∀ ve : JSStringArray,
      StylingRegistry.getAsClassName registry "validation.error" ∈
        (BaseControl.runtimeUpdated registry ⟨vis, en, ve⟩
           .VALIDATION_ERROR dom).classList ↔ ve ≠ .undef) ∧
    ((BaseControl.runtimeUpdated registry ⟨vis, en, .null⟩
        .VALIDATION_ERROR dom).errorText = "" ∧
     StylingRegistry.getAsClassName registry "validation.error" ∈
       (BaseControl.runtimeUpdated registry ⟨vis, en, .null⟩
          .VALIDATION_ERROR dom).classList) ∧
    ((BaseControl.runtimeUpdated registry ⟨vis, en, .arr []⟩
        .VALIDATION_ERROR dom).errorText = "" ∧
     StylingRegistry.getAsClassName registry "validation.error" ∈
       (BaseControl.runtimeUpdated registry ⟨vis, en, .arr []⟩
          .VALIDATION_ERROR dom).classList) := by
  refine ⟨fun ve => ?_, ⟨rfl, mem_classListToggle_add _ _⟩,
    ⟨rfl, mem_classListToggle_add _ _⟩⟩
  cases ve with
  | undef =>
    exact iff_of_false (not_mem_classListToggle_remove _ _) (by simp)
  | null =>
    exact iff_of_true (mem_classListToggle_add _ _) (by simp)
  | arr l =>
    exact iff_of_true (mem_classListToggle_add _ _) (by simp)

/-- Witness for C9 at a concrete registry (`'validation.error' ↦ ["err"]`)
and control state, for `null` and the empty array. -/
theorem C9_error_class_iff_not_undef_witness :
    (BaseControl.runtimeUpdated [⟨"validation.error", ["err"]⟩]
        ⟨true, true, .null⟩ .VALIDATION_ERROR
        ⟨["control"], "", false, false⟩).errorText = "" ∧
    "err" ∈ (BaseControl.runtimeUpdated [⟨"validation.error", ["err"]⟩]
        ⟨true, true, .null⟩ .VALIDATION_ERROR
        ⟨["control"], "", false, false⟩).classList ∧
    (BaseControl.runtimeUpdated [⟨"validation.error", ["err"]⟩]
        ⟨true, true, .arr []⟩ .VALIDATION_ERROR
        ⟨["control"], "", false, false⟩).errorText = "" ∧
    "err" ∈ (BaseControl.runtimeUpdated [⟨"validation.error", ["err"]⟩]
        ⟨true, true, .arr []⟩ .VALIDATION_ERROR
        ⟨["control"], "", false, false⟩).classList := by
  have h := C9_error_class_iff_not_undef [⟨"validation.error", ["err"]⟩]
    ⟨["control"], "", false, false⟩ true true
  have htok : StylingRegistry.getAsClassName [⟨"validation.error", ["err"]⟩]
      "validation.error" = "err" := by decide
  rw [htok] at h
  exact ⟨h.2.1.1, h.2.1.2, h.2.2.1, h.2.2.2⟩

/-- C4: `needsNotificationAbout` returns true exactly when the other
element is present (neither `undefined` nor `null`, both modelled as
`none`) and its bound path reference equals this control's bound path
reference. -/
theorem C4_needsNotificationAbout_iff (c : ControlElement)
    (e : Option ControlElement) :
    BaseControl.needsNotificationAbout c e = true ↔
      ∃ o, e = some o ∧ o.scope.ref = c.scope.ref := by
  cases e with
  | none => simp [BaseControl.needsNotificationAbout]
  | some o =>
    simp only [BaseControl.needsNotificationAbout, beq_iff_eq,
      Option.some.injEq]
    constructor
    · intro h
      exact ⟨o, rfl, h.symm⟩
    · rintro ⟨o2, rfl, h3⟩
      exact h3.symm

/-- Witness for C4 on the spec's `/firstName` / `/lastName` example. -/
theorem C4_needsNotificationAbout_iff_witness :
    BaseControl.needsNotificationAbout ⟨⟨"/firstName"⟩⟩
      (some ⟨⟨"/firstName"⟩⟩) = true ∧
    BaseControl.needsNotificationAbout ⟨⟨"/firstName"⟩⟩
      (some ⟨⟨"/lastName"⟩⟩) = false ∧
    BaseControl.needsNotificationAbout ⟨⟨"/firstName"⟩⟩ none = false :=
  ⟨(C4_needsNotificationAbout_iff ⟨⟨"/firstName"⟩⟩ (some ⟨⟨"/firstName"⟩⟩)).mpr
      ⟨⟨⟨"/firstName"⟩⟩, rfl, rfl⟩,
   by decide, by decide⟩

/-- C6: firing the input widget's change handler once appends exactly one
notification to the data service's log, carrying this control's bound
element and the widget's current value after the subclass-defined
input-to-model conversion. -/
theorem C6_change_handler_single_notification {V W : Type}
    (convertInputValue : V → W) (controlElement : ControlElement)
    (inputValue : V) (log : List (BaseControl.Notification W)) :
    BaseControl.inputChangeHandler convertInputValue controlElement
        inputValue log =
      log ++ [⟨controlElement, convertInputValue inputValue⟩] ∧
    (BaseControl.inputChangeHandler convertInputValue controlElement
        inputValue log).length = log.length + 1 :=
  ⟨rfl, by
    simp [BaseControl.inputChangeHandler, BaseControl.notifyAboutDataChange,
      BaseControl.getValue]⟩

end JsonForms
